import Mathlib

/-!
# Verification of the Bagel model download manager

Shallow embedding of `src/custom_nodes/bagel/bagel_model_downloader.py`:
the validator (`validate_model_url`), the download registry
(`create_download`, `cancel_download`), the start-download request handler
(`handle_download_model`) and the transfer worker (`download_model`).

Modelling conventions:
* Python strings become `String`; byte counts become `Nat`; the Python
  `float` field `progress_percent` becomes `ℚ` (its values here are exact
  ratios of byte counts, scaled by 100).
* Wall-clock timestamps (`started_at`, `completed_at`) and logging are
  dropped: no claim mentions them.
* Error messages built by Python f-strings that format floating point
  numbers (the "Model too large" message) are modelled by a structured
  error value carrying the same data instead of a rendered string.
* The network and the file system are modelled by an environment `Env`
  (HTTP status, Content-Length header, the list of chunk sizes the body
  yields, the step at which the cancellation flag becomes visible, an
  injected stream failure, an injected failure of the final move) and an
  explicit file-system state `FS` for the worker's temporary file and its
  destination path.
* `send_progress_update` swallows all delivery errors in the source, so a
  notification is modelled as appending a snapshot of the record to a list;
  it never affects control flow.
-/

namespace BagelModelDownloader

/-- `ALLOWED_MODEL_SOURCES` from the source: URL prefix whitelist. -/
def ALLOWED_MODEL_SOURCES : List String :=
  ["https://huggingface.co/", "https://civitai.com/",
   "https://raw.githubusercontent.com/"]

/-- `ALLOWED_EXTENSIONS` from the source (a Python set, listed in source order). -/
def ALLOWED_EXTENSIONS : List String :=
  [".safetensors", ".sft", ".ckpt", ".pt", ".pth", ".bin", ".onnx", ".yaml", ".json"]

/-- `MAX_MODEL_SIZE_BYTES = 50 * 1024 * 1024 * 1024`. -/
def MAX_MODEL_SIZE_BYTES : Nat := 50 * 1024 * 1024 * 1024

/-- Python `s.startswith(p)`, computed structurally over the characters
(so that the kernel can evaluate it). -/
def strStartsWith (s p : String) : Bool :=
  p.data.isPrefixOf s.data

/-- Python `s.endswith(p)`, computed structurally over the characters. -/
def strEndsWith (s p : String) : Bool :=
  p.data.isSuffixOf s.data

/-- Python `s[:n]`, computed structurally over the characters. -/
def strTake (s : String) (n : Nat) : String :=
  String.mk (s.data.take n)

/-- Python `s.lower()` (ASCII case folding, as all inputs here are ASCII),
computed structurally over the characters. -/
def strLower (s : String) : String :=
  String.mk (s.data.map Char.toLower)

/-- Python `s.strip()`: remove leading and trailing whitespace, computed
structurally over the characters. -/
def strTrim (s : String) : String :=
  String.mk
    (((s.data.dropWhile Char.isWhitespace).reverse.dropWhile
        Char.isWhitespace).reverse)

/-- The characters of the last path component (Python: part after the last `/`). -/
def afterLastSep (s : List Char) : List Char :=
  s.foldl (fun acc c => if c = '/' then [] else acc ++ [c]) []

/-- Split a character list at its LAST `.`: returns `(before, dot-and-after)`,
or `none` when there is no dot. -/
def lastDotSplit : List Char → Option (List Char × List Char)
  | [] => none
  | c :: rest =>
    match lastDotSplit rest with
    | some (b, a) => some (c :: b, a)
    | none => if c = '.' then some ([], c :: rest) else none

/-- Extension of a basename, with `os.path.splitext` semantics: the part from
the last dot on, except that a basename consisting only of leading dots
before that dot (e.g. `.bashrc`, `..`) has no extension. -/
def extOfBase (base : List Char) : List Char :=
  match lastDotSplit base with
  | some (b, a) => if b.any (fun c => c ≠ '.') then a else []
  | none => []

/-- `os.path.splitext(p)[1]`: the extension of the last path component. -/
def splitextExt (p : String) : String :=
  String.mk (extOfBase (afterLastSep p.data))

/-- Python `needle in hay` substring test. -/
def containsSubstr (needle hay : String) : Bool :=
  (List.range (hay.data.length + 1)).any
    (fun i => needle.data.isPrefixOf (hay.data.drop i))

/-- The "URL source not allowed" rejection message (f-string of the source,
with `url[:100]`). -/
def sourceBlockedMsg (url : String) : String :=
  "Download blocked: URL source not allowed. Only HuggingFace, CivitAI, and " ++
  "GitHub are permitted. Got: " ++ strTake url 100

/-- The "File type not allowed" rejection message (f-string of the source). -/
def extBlockedMsg (ext : String) : String :=
  "Download blocked: File type not allowed. Allowed: " ++
  String.intercalate ", " ALLOWED_EXTENSIONS ++ ". Got: " ++ ext

/-- The path-traversal rejection message (a literal in the source). -/
def traversalMsg : String :=
  "Download blocked: Invalid filename (path traversal detected)"

/-- `validate_model_url(url, filename) -> (is_valid, error_message)`.
Checks, in source order: URL prefix whitelist, then file extension
allow-list, then path traversal (`'..' in filename or filename.startswith('/')`). -/
def validate_model_url (url filename : String) : Bool × String :=
  if ¬ ALLOWED_MODEL_SOURCES.any (fun s => strStartsWith url s) then
    (false, sourceBlockedMsg url)
  else
    let ext := strLower (splitextExt filename)
    if ¬ ALLOWED_EXTENSIONS.contains ext then
      (false, extBlockedMsg ext)
    else if containsSubstr ".." filename ∨ strStartsWith filename "/" then
      (false, traversalMsg)
    else
      (true, "")

/-- Structured rendering of the worker's `error_message` strings. Python
renders these as f-strings (some formatting floats); the constructors carry
the same underlying data. -/
inductive WorkerError where
  | httpError (status : Nat)
  | tooLarge (totalBytes : Nat)
  | streamError
  | moveError
deriving DecidableEq, Repr

/-- The `DownloadInfo` dataclass (timestamps dropped; `error_message`
structured, `none` standing for the empty string). -/
structure DownloadInfo where
  download_id : String
  user_id : String
  url : String
  model_type : String
  filename : String
  destination_path : String
  status : String
  progress_bytes : Nat
  total_bytes : Nat
  progress_percent : ℚ
  error_message : Option WorkerError
  cancel_requested : Bool
deriving DecidableEq, Repr

/-- `os.path.join(a, b)` for the two-argument uses in the source. -/
def joinPath (a b : String) : String :=
  if strStartsWith b "/" then b
  else if a = "" ∨ strEndsWith a "/" then a ++ b
  else a ++ "/" ++ b

/-- The parts of the host environment the handler reads: the keys of
`folder_paths.folder_names_and_paths`, `folder_paths.get_folder_paths(t)[0]`,
and `os.path.exists`. -/
structure ServerCtx where
  folderNames : List String
  folderPath : String → String
  destExistsAt : String → Bool

/-- `ModelDownloadManager.create_download` (the uuid is passed in
explicitly as `download_id`): builds a fresh pending record with the
destination derived from the model type's folder and the filename. -/
def create_download (ctx : ServerCtx) (user_id url model_type filename
    download_id : String) : DownloadInfo :=
  { download_id := download_id
    user_id := user_id
    url := url
    model_type := model_type
    filename := filename
    destination_path := joinPath (ctx.folderPath model_type) filename
    status := "pending"
    progress_bytes := 0
    total_bytes := 0
    progress_percent := 0
    error_message := none
    cancel_requested := false }

/-- The registry's map `active_downloads`, as an association list in
insertion order; lookup (`dict.get`) is `List.find?` on `download_id`. -/
def findDownload (reg : List DownloadInfo) (id : String) : Option DownloadInfo :=
  reg.find? (fun d => d.download_id == id)

/-- `ModelDownloadManager.cancel_download`: sets `cancel_requested := true`
and returns `true` when the looked-up record's status is `"downloading"`;
otherwise mutates nothing and returns `false`. -/
def cancel_download (reg : List DownloadInfo) (id : String) :
    List DownloadInfo × Bool :=
  match findDownload reg id with
  | none => (reg, false)
  | some d =>
    if d.status = "downloading" then
      (reg.map (fun e =>
        if e.download_id == id then { e with cancel_requested := true } else e),
       true)
    else
      (reg, false)

/-- Outcome of `handle_download_model`, one constructor per JSON response
shape of the source handler. -/
inductive StartResult where
  | missingFields
  | invalidType (modelType : String) (validTypes : List String)
  | blocked (errorMsg : String)
  | alreadyExists (filename destination : String)
  | queued (download : DownloadInfo)
deriving DecidableEq, Repr

/-- `handle_download_model`: field presence check, model-type check against
the folder table, security validation, deduplication against the existing
destination file, then record creation and worker spawn. Returns the
response, the registry afterwards, and whether a worker task was spawned. -/
def handle_download_model (ctx : ServerCtx) (reg : List DownloadInfo)
    (newId user_id url model_type filename : String) :
    StartResult × List DownloadInfo × Bool :=
  let url := strTrim url
  let model_type := strTrim model_type
  let filename := strTrim filename
  if url = "" ∨ model_type = "" ∨ filename = "" then
    (.missingFields, reg, false)
  else if ¬ ctx.folderNames.contains model_type then
    (.invalidType model_type ctx.folderNames, reg, false)
  else
    let v := validate_model_url url filename
    if v.1 = false then
      (.blocked v.2, reg, false)
    else
      let destination := joinPath (ctx.folderPath model_type) filename
      if ctx.destExistsAt destination then
        (.alreadyExists filename destination, reg, false)
      else
        let dl := create_download ctx user_id url model_type filename newId
        (.queued dl, reg ++ [dl], true)

/-- One worker run's external environment: the upstream HTTP response, the
chunk sizes its body yields in order, when (if ever) the registry's
cancellation flag becomes visible to the worker, and injected local
failures (a stream/write error before a given chunk is counted, a failure
of the final `shutil.move`). -/
structure Env where
  httpStatus : Nat
  contentLength : Option Nat
  chunks : List Nat
  cancelAt : Option Nat
  failAt : Option Nat
  moveFails : Bool
deriving DecidableEq, Repr

/-- Whether `cancel_requested` reads `true` at the top of iteration `i`. -/
def cancelFlag (env : Env) (i : Nat) : Bool :=
  match env.cancelAt with
  | some k => decide (k ≤ i)
  | none => false

/-- File-system state relevant to one worker: whether its `tempfile.mkstemp`
file was ever created, whether it currently exists, and whether a file
exists at `destination_path`. -/
structure FS where
  tempCreated : Bool
  tempExists : Bool
  destExists : Bool
deriving DecidableEq, Repr

/-- `tempfile.mkstemp(...)`. -/
def FS.mkstemp (fs : FS) : FS :=
  { fs with tempCreated := true, tempExists := true }

/-- `os.unlink(temp_local_path)` (also the inner-handler cleanup path). -/
def FS.unlinkTemp (fs : FS) : FS :=
  { fs with tempExists := false }

/-- `shutil.move(temp_local_path, destination_path)`: publishes the file and
removes the source. -/
def FS.moveTempToDest (fs : FS) : FS :=
  { fs with tempExists := false, destExists := true }

/-- A fresh file system: no temp file, nothing at the destination. -/
def FS.init : FS :=
  { tempCreated := false, tempExists := false, destExists := false }

/-- Result of one `download_model` run: the record at the end, the file
system at the end, the snapshots pushed through `send_progress_update`, and
the timeline of record states after each mutation (the observable history
a status poll could see). -/
structure RunResult where
  record : DownloadInfo
  fs : FS
  notifications : List DownloadInfo
  timeline : List DownloadInfo
deriving DecidableEq, Repr

/-- The record mutation performed for one received chunk of `c` bytes:
`f.write(chunk)` has appended `c` bytes to the temporary file,
`progress_bytes` grows by `c`, and `progress_percent` is recomputed only
when `total_bytes > 0` (source lines 193-200). -/
def stepRecord (dl : DownloadInfo) (c : Nat) : DownloadInfo :=
  if 0 < dl.total_bytes then
    { dl with
        progress_bytes := dl.progress_bytes + c,
        progress_percent :=
          ((dl.progress_bytes + c : Nat) : ℚ) / (dl.total_bytes : ℚ) * 100 }
  else
    { dl with progress_bytes := dl.progress_bytes + c }

/-- The chunk loop of `ModelDownloadManager.download_model` (source lines
181-232 plus the surrounding exception handlers). `idx` is the 0-based
iteration index, `lastPct` is `last_progress_percent`. Per iteration, in
source order: cancellation check (delete temp, `cancelled`, notify,
return), the chunk write (an injected failure here reaches the outer
handler after the inner one deleted the temp), `progress_bytes` increment,
`progress_percent` recomputation when `total_bytes > 0`, and the every-5%
notification. After the last chunk: `shutil.move` (its failure likewise
deletes the temp and ends in `failed`), then `completed` with
`progress_percent := 100` and a final notification. The returned
`notifications`/`timeline` are the elements this loop appends. -/
def streamLoop (env : Env) (dl : DownloadInfo) (idx : Nat) (chunks : List Nat)
    (lastPct : ℚ) (fs : FS) : RunResult :=
  match chunks with
  | [] =>
    if env.moveFails then
      { record := { dl with status := "failed", error_message := some .moveError }
        fs := fs.unlinkTemp
        notifications := [{ dl with status := "failed", error_message := some .moveError }]
        timeline := [{ dl with status := "failed", error_message := some .moveError }] }
    else
      { record := { dl with status := "completed", progress_percent := 100 }
        fs := fs.moveTempToDest
        notifications := [{ dl with status := "completed", progress_percent := 100 }]
        timeline := [{ dl with status := "completed", progress_percent := 100 }] }
  | c :: rest =>
    if cancelFlag env idx then
      { record := { dl with status := "cancelled", cancel_requested := true }
        fs := fs.unlinkTemp
        notifications := [{ dl with status := "cancelled", cancel_requested := true }]
        timeline := [{ dl with status := "cancelled", cancel_requested := true }] }
    else if env.failAt = some idx then
      { record := { dl with status := "failed", error_message := some .streamError }
        fs := fs.unlinkTemp
        notifications := [{ dl with status := "failed", error_message := some .streamError }]
        timeline := [{ dl with status := "failed", error_message := some .streamError }] }
    else if 0 < dl.total_bytes ∧ (stepRecord dl c).progress_percent - lastPct ≥ 5 then
      { streamLoop env (stepRecord dl c) (idx + 1) rest
          (stepRecord dl c).progress_percent fs with
        notifications := stepRecord dl c ::
          (streamLoop env (stepRecord dl c) (idx + 1) rest
            (stepRecord dl c).progress_percent fs).notifications
        timeline := stepRecord dl c ::
          (streamLoop env (stepRecord dl c) (idx + 1) rest
            (stepRecord dl c).progress_percent fs).timeline }
    else
      { streamLoop env (stepRecord dl c) (idx + 1) rest lastPct fs with
        timeline := stepRecord dl c ::
          (streamLoop env (stepRecord dl c) (idx + 1) rest lastPct fs).timeline }

/-- `ModelDownloadManager.download_model` for a record `dl0` (as stored by
`create_download`), run against environment `env` on file system `fs`:
set `status := "downloading"`; a non-200 response raises into the outer
handler (`failed`, notify, no temp ever made); read
`int(headers.get('Content-Length', 0))` into `total_bytes`; a declared size
over `MAX_MODEL_SIZE_BYTES` likewise fails before any temp file exists;
otherwise `mkstemp` and stream via `streamLoop`. -/
def download_model (env : Env) (dl0 : DownloadInfo) (fs : FS) : RunResult :=
  let dlD := { dl0 with status := "downloading" }
  if env.httpStatus ≠ 200 then
    let dlF := { dlD with
        status := "failed", error_message := some (.httpError env.httpStatus) }
    { record := dlF, fs := fs, notifications := [dlF],
      timeline := [dl0, dlD, dlF] }
  else
    let total := env.contentLength.getD 0
    let dlT := { dlD with total_bytes := total }
    if total > MAX_MODEL_SIZE_BYTES then
      let dlF := { dlT with
          status := "failed", error_message := some (.tooLarge total) }
      { record := dlF, fs := fs, notifications := [dlF],
        timeline := [dl0, dlD, dlT, dlF] }
    else
      let r := streamLoop env dlT 0 env.chunks 0 fs.mkstemp
      { r with timeline := dl0 :: dlD :: dlT :: r.timeline }

/-- Pointwise order on the progress percentage, for monotonicity statements
about a record's timeline. -/
abbrev pctLe (a b : DownloadInfo) : Prop :=
  a.progress_percent ≤ b.progress_percent

/-- A sample host context: one model folder, destination never occupied. -/
def sampleCtx : ServerCtx :=
  { folderNames := ["checkpoints"]
    folderPath := fun _ => "/comfyui/models/checkpoints"
    destExistsAt := fun _ => false }

/-- A sample host context whose destination path is already occupied. -/
def sampleCtxDup : ServerCtx :=
  { sampleCtx with destExistsAt := fun _ => true }

/-- A sample freshly created record. -/
def sampleDl : DownloadInfo :=
  create_download sampleCtx "alice" "https://huggingface.co/m/f.safetensors"
    "checkpoints" "f.safetensors" "id1"

/-- The sample record mid-transfer. -/
def sampleDownloading : DownloadInfo :=
  { sampleDl with status := "downloading" }

/-- The sample record mid-transfer with the cancellation flag already set. -/
def sampleFlagged : DownloadInfo :=
  { sampleDownloading with cancel_requested := true }

/-- Run: declared size 10, one 10-byte chunk, clean finish. -/
def envFullBody : Env := ⟨200, some 10, [10], none, none, false⟩

/-- Run: declared size 10 but 15 bytes actually delivered. -/
def envOverBody : Env := ⟨200, some 10, [15], none, none, false⟩

/-- Run: no Content-Length header, one 5-byte chunk, clean finish. -/
def envNoLength : Env := ⟨200, none, [5], none, none, false⟩

/-- Run: declared size one byte over the 50 GiB cap. -/
def envTooLarge : Env :=
  ⟨200, some (MAX_MODEL_SIZE_BYTES + 1), [], none, none, false⟩

/-- Run: no Content-Length header, a single chunk larger than the cap. -/
def envHugeBody : Env :=
  ⟨200, none, [MAX_MODEL_SIZE_BYTES + 1], none, none, false⟩

/-- Run: declared size 10 delivered as chunks of 4 and 6, clean finish. -/
def envTwoChunks : Env := ⟨200, some 10, [4, 6], none, none, false⟩

/-- Run: cancellation flag becomes visible before the second chunk. -/
def envCancelMid : Env := ⟨200, some 10, [4, 6], some 1, none, false⟩

/-- The worker's percentage invariant: `progress_percent` is the
transferred fraction scaled to 100 when a total is known, and the initial 0
otherwise (the loop never writes it when `total_bytes = 0`). -/
def PctInv (dl : DownloadInfo) : Prop :=
  dl.progress_percent =
    if 0 < dl.total_bytes then
      (dl.progress_bytes : ℚ) / (dl.total_bytes : ℚ) * 100
    else 0

/-! ## Arithmetic and single-step lemmas -/

theorem pct_le_100 (b t : Nat) (hbt : b ≤ t) (ht : 0 < t) :
    (b : ℚ) / (t : ℚ) * 100 ≤ 100 := by
  have ht' : (0 : ℚ) < (t : ℚ) := by exact_mod_cast ht
  have h1 : (b : ℚ) / (t : ℚ) ≤ 1 := (div_le_one ht').mpr (by exact_mod_cast hbt)
  calc (b : ℚ) / (t : ℚ) * 100 ≤ 1 * 100 :=
        mul_le_mul_of_nonneg_right h1 (by norm_num)
    _ = 100 := by norm_num

theorem pct_mono (b b' t : Nat) (hbb : b ≤ b') :
    (b : ℚ) / (t : ℚ) * 100 ≤ (b' : ℚ) / (t : ℚ) * 100 := by
  have h1 : (b : ℚ) / (t : ℚ) ≤ (b' : ℚ) / (t : ℚ) :=
    div_le_div_of_nonneg_right (by exact_mod_cast hbb) (by positivity)
  exact mul_le_mul_of_nonneg_right h1 (by norm_num)

theorem stepRecord_total (dl : DownloadInfo) (c : Nat) :
    (stepRecord dl c).total_bytes = dl.total_bytes := by
  unfold stepRecord; split <;> rfl

theorem stepRecord_bytes (dl : DownloadInfo) (c : Nat) :
    (stepRecord dl c).progress_bytes = dl.progress_bytes + c := by
  unfold stepRecord; split <;> rfl

theorem stepRecord_status (dl : DownloadInfo) (c : Nat) :
    (stepRecord dl c).status = dl.status := by
  unfold stepRecord; split <;> rfl

theorem stepRecord_inv (dl : DownloadInfo) (c : Nat) (h : PctInv dl) :
    PctInv (stepRecord dl c) := by
  unfold PctInv at h ⊢
  unfold stepRecord
  split
  case isTrue ht => rfl
  case isFalse ht =>
    rw [if_neg ht] at h
    exact h

theorem stepRecord_pct_ge (dl : DownloadInfo) (c : Nat) (h : PctInv dl) :
    dl.progress_percent ≤ (stepRecord dl c).progress_percent := by
  unfold PctInv at h
  unfold stepRecord
  split
  case isTrue ht =>
    rw [h, if_pos ht]
    exact pct_mono dl.progress_bytes (dl.progress_bytes + c) dl.total_bytes
      (Nat.le_add_right _ _)
  case isFalse ht => exact le_refl _

theorem cur_pct_le_100 (dl : DownloadInfo) (h : PctInv dl)
    (hb : dl.total_bytes = 0 ∨ dl.progress_bytes ≤ dl.total_bytes) :
    dl.progress_percent ≤ 100 := by
  unfold PctInv at h
  rw [h]
  split
  case isTrue ht =>
    rcases hb with h0 | hbt
    · omega
    · exact pct_le_100 _ _ hbt ht
  case isFalse ht => norm_num

/-! ## Loop invariants -/

/-- The chunk loop never changes `total_bytes`. -/
theorem streamLoop_total (env : Env) (chunks : List Nat) :
    ∀ (dl : DownloadInfo) (idx : Nat) (lastPct : ℚ) (fs : FS),
      (streamLoop env dl idx chunks lastPct fs).record.total_bytes = dl.total_bytes := by
  induction chunks with
  | nil =>
    intro dl idx lastPct fs
    simp only [streamLoop]
    split <;> rfl
  | cons c rest ih =>
    intro dl idx lastPct fs
    simp only [streamLoop]
    split
    · rfl
    · split
      · rfl
      · split
        · simp only []
          rw [ih, stepRecord_total]
        · simp only []
          rw [ih, stepRecord_total]

/-- Every exit of the chunk loop leaves no temporary file behind: all
terminal paths either `os.unlink` the temp file or `shutil.move` it away. -/
theorem streamLoop_fs_clean (env : Env) (chunks : List Nat) :
    ∀ (dl : DownloadInfo) (idx : Nat) (lastPct : ℚ) (fs : FS),
      (streamLoop env dl idx chunks lastPct fs).fs.tempExists = false := by
  induction chunks with
  | nil =>
    intro dl idx lastPct fs
    simp only [streamLoop]
    split <;> rfl
  | cons c rest ih =>
    intro dl idx lastPct fs
    simp only [streamLoop]
    split
    · rfl
    · split
      · rfl
      · split
        · exact ih _ _ _ _
        · exact ih _ _ _ _

/-- The chunk loop always ends in one of the three terminal statuses. -/
theorem streamLoop_terminal_status (env : Env) (chunks : List Nat) :
    ∀ (dl : DownloadInfo) (idx : Nat) (lastPct : ℚ) (fs : FS),
      (streamLoop env dl idx chunks lastPct fs).record.status = "completed" ∨
      (streamLoop env dl idx chunks lastPct fs).record.status = "failed" ∨
      (streamLoop env dl idx chunks lastPct fs).record.status = "cancelled" := by
  induction chunks with
  | nil =>
    intro dl idx lastPct fs
    simp only [streamLoop]
    split
    · exact Or.inr (Or.inl rfl)
    · exact Or.inl rfl
  | cons c rest ih =>
    intro dl idx lastPct fs
    simp only [streamLoop]
    split
    · exact Or.inr (Or.inr rfl)
    · split
      · exact Or.inr (Or.inl rfl)
      · split
        · exact ih _ _ _ _
        · exact ih _ _ _ _

/-- Whenever the chunk loop ends `completed`, it has just set
`progress_percent := 100`. -/
theorem streamLoop_completed_pct (env : Env) (chunks : List Nat) :
    ∀ (dl : DownloadInfo) (idx : Nat) (lastPct : ℚ) (fs : FS),
      (streamLoop env dl idx chunks lastPct fs).record.status = "completed" →
      (streamLoop env dl idx chunks lastPct fs).record.progress_percent = 100 := by
  induction chunks with
  | nil =>
    intro dl idx lastPct fs
    simp only [streamLoop]
    split
    · intro h; exact absurd ((by decide : ("failed" : String) ≠ "completed")) (fun hne => hne h)
    · intro _; rfl
  | cons c rest ih =>
    intro dl idx lastPct fs
    simp only [streamLoop]
    split
    · intro h; exact absurd ((by decide : ("cancelled" : String) ≠ "completed")) (fun hne => hne h)
    · split
      · intro h; exact absurd ((by decide : ("failed" : String) ≠ "completed")) (fun hne => hne h)
      · split
        · exact ih _ _ _ _
        · exact ih _ _ _ _

theorem getLast?_cons_of_some {α : Type} (a x : α) (l : List α)
    (h : l.getLast? = some x) : (a :: l).getLast? = some x := by
  cases l with
  | nil => simp at h
  | cons b t => rw [List.getLast?_cons_cons]; exact h

/-- As long as the body never delivers more than the declared total, the
percentages along the loop's timeline are non-decreasing, starting from the
current record's percentage. -/
theorem streamLoop_chain (env : Env) (chunks : List Nat) :
    ∀ (dl : DownloadInfo) (idx : Nat) (lastPct : ℚ) (fs : FS),
      PctInv dl →
      (dl.total_bytes = 0 ∨ dl.progress_bytes + chunks.sum ≤ dl.total_bytes) →
      List.Chain' pctLe (dl :: (streamLoop env dl idx chunks lastPct fs).timeline) := by
  induction chunks with
  | nil =>
    intro dl idx lastPct fs hinv hsum
    simp only [streamLoop]
    split
    · exact List.chain'_cons.mpr ⟨le_refl dl.progress_percent, List.chain'_singleton _⟩
    · refine List.chain'_cons.mpr ⟨?_, List.chain'_singleton _⟩
      show dl.progress_percent ≤ 100
      refine cur_pct_le_100 dl hinv ?_
      rcases hsum with h0 | hb
      · exact Or.inl h0
      · right; simpa using hb
  | cons c rest ih =>
    intro dl idx lastPct fs hinv hsum
    have hsum' : (stepRecord dl c).total_bytes = 0 ∨
        (stepRecord dl c).progress_bytes + rest.sum ≤ (stepRecord dl c).total_bytes := by
      rw [stepRecord_total, stepRecord_bytes]
      rcases hsum with h0 | hb
      · exact Or.inl h0
      · right
        rw [List.sum_cons] at hb
        omega
    simp only [streamLoop]
    split
    · exact List.chain'_cons.mpr ⟨le_refl dl.progress_percent, List.chain'_singleton _⟩
    · split
      · exact List.chain'_cons.mpr ⟨le_refl dl.progress_percent, List.chain'_singleton _⟩
      · split
        · exact List.chain'_cons.mpr ⟨stepRecord_pct_ge dl c hinv,
            ih (stepRecord dl c) _ _ _ (stepRecord_inv dl c hinv) hsum'⟩
        · exact List.chain'_cons.mpr ⟨stepRecord_pct_ge dl c hinv,
            ih (stepRecord dl c) _ _ _ (stepRecord_inv dl c hinv) hsum'⟩

/-- Under the same delivery bound, no timeline percentage exceeds 100. -/
theorem streamLoop_le100 (env : Env) (chunks : List Nat) :
    ∀ (dl : DownloadInfo) (idx : Nat) (lastPct : ℚ) (fs : FS),
      PctInv dl →
      (dl.total_bytes = 0 ∨ dl.progress_bytes + chunks.sum ≤ dl.total_bytes) →
      ∀ s ∈ (streamLoop env dl idx chunks lastPct fs).timeline,
        s.progress_percent ≤ 100 := by
  induction chunks with
  | nil =>
    intro dl idx lastPct fs hinv hsum s hs
    have hcur : dl.progress_percent ≤ 100 := by
      refine cur_pct_le_100 dl hinv ?_
      rcases hsum with h0 | hb
      · exact Or.inl h0
      · right; simpa using hb
    simp only [streamLoop] at hs
    split at hs
    · obtain rfl := List.mem_singleton.mp hs
      exact hcur
    · obtain rfl := List.mem_singleton.mp hs
      exact le_refl 100
  | cons c rest ih =>
    intro dl idx lastPct fs hinv hsum s hs
    have hcur : dl.progress_percent ≤ 100 := by
      refine cur_pct_le_100 dl hinv ?_
      rcases hsum with h0 | hb
      · exact Or.inl h0
      · right
        rw [List.sum_cons] at hb
        omega
    have hsum' : (stepRecord dl c).total_bytes = 0 ∨
        (stepRecord dl c).progress_bytes + rest.sum ≤ (stepRecord dl c).total_bytes := by
      rw [stepRecord_total, stepRecord_bytes]
      rcases hsum with h0 | hb
      · exact Or.inl h0
      · right
        rw [List.sum_cons] at hb
        omega
    have hstep_le : (stepRecord dl c).progress_percent ≤ 100 := by
      refine cur_pct_le_100 _ (stepRecord_inv dl c hinv) ?_
      rw [stepRecord_total, stepRecord_bytes]
      rcases hsum with h0 | hb
      · exact Or.inl h0
      · right
        rw [List.sum_cons] at hb
        omega
    simp only [streamLoop] at hs
    split at hs
    · obtain rfl := List.mem_singleton.mp hs
      exact hcur
    · split at hs
      · obtain rfl := List.mem_singleton.mp hs
        exact hcur
      · split at hs
        · rcases List.mem_cons.mp hs with rfl | hmem
          · exact hstep_le
          · exact ih (stepRecord dl c) _ _ _ (stepRecord_inv dl c hinv) hsum' s hmem
        · rcases List.mem_cons.mp hs with rfl | hmem
          · exact hstep_le
          · exact ih (stepRecord dl c) _ _ _ (stepRecord_inv dl c hinv) hsum' s hmem

/-- When nothing is cancelled and nothing fails, the loop completes: it
publishes the file (temp gone, destination present), accumulates exactly
the received bytes, sets the percentage to 100, and its last notification
is the final record. -/
theorem streamLoop_success (env : Env) (hc : env.cancelAt = none)
    (hf : env.failAt = none) (hm : env.moveFails = false) (chunks : List Nat) :
    ∀ (dl : DownloadInfo) (idx : Nat) (lastPct : ℚ) (fs : FS),
      (streamLoop env dl idx chunks lastPct fs).record.status = "completed" ∧
      (streamLoop env dl idx chunks lastPct fs).record.progress_percent = 100 ∧
      (streamLoop env dl idx chunks lastPct fs).record.progress_bytes =
        dl.progress_bytes + chunks.sum ∧
      (streamLoop env dl idx chunks lastPct fs).fs.tempExists = false ∧
      (streamLoop env dl idx chunks lastPct fs).fs.destExists = true ∧
      (streamLoop env dl idx chunks lastPct fs).notifications.getLast? =
        some (streamLoop env dl idx chunks lastPct fs).record := by
  induction chunks with
  | nil =>
    intro dl idx lastPct fs
    simp only [streamLoop]
    rw [if_neg (by simp [hm])]
    exact ⟨rfl, rfl, by simp, rfl, rfl, rfl⟩
  | cons c rest ih =>
    intro dl idx lastPct fs
    have hcf : cancelFlag env idx = false := by simp [cancelFlag, hc]
    simp only [streamLoop]
    rw [if_neg (by simp [hcf]), if_neg (by simp [hf])]
    have hbytes : ∀ (lp : ℚ) (fs' : FS),
        (streamLoop env (stepRecord dl c) (idx + 1) rest lp fs').record.progress_bytes =
          dl.progress_bytes + (c :: rest).sum := by
      intro lp fs'
      obtain ⟨-, -, h3, -⟩ := ih (stepRecord dl c) (idx + 1) lp fs'
      rw [h3, stepRecord_bytes, List.sum_cons]
      omega
    split
    · obtain ⟨h1, h2, h3, h4, h5, h6⟩ :=
        ih (stepRecord dl c) (idx + 1) (stepRecord dl c).progress_percent fs
      exact ⟨h1, h2, hbytes _ _, h4, h5, getLast?_cons_of_some _ _ _ h6⟩
    · obtain ⟨h1, h2, h3, h4, h5, h6⟩ := ih (stepRecord dl c) (idx + 1) lastPct fs
      exact ⟨h1, h2, hbytes _ _, h4, h5, h6⟩

/-- With no declared total (`total_bytes = 0`), a clean run keeps the
percentage at 0 at every point of the loop's timeline except the final
`completed` snapshot, and emits exactly one notification: the final one. -/
theorem streamLoop_zero_total (env : Env) (hc : env.cancelAt = none)
    (hf : env.failAt = none) (hm : env.moveFails = false) (chunks : List Nat) :
    ∀ (dl : DownloadInfo) (idx : Nat) (lastPct : ℚ) (fs : FS),
      dl.total_bytes = 0 → dl.progress_percent = 0 →
      (streamLoop env dl idx chunks lastPct fs).notifications =
        [(streamLoop env dl idx chunks lastPct fs).record] ∧
      ∀ s ∈ (streamLoop env dl idx chunks lastPct fs).timeline,
        s.progress_percent = 0 ∨ s.status = "completed" := by
  induction chunks with
  | nil =>
    intro dl idx lastPct fs ht hp
    simp only [streamLoop]
    rw [if_neg (by simp [hm])]
    refine ⟨rfl, ?_⟩
    intro s hs
    obtain rfl := List.mem_singleton.mp hs
    exact Or.inr rfl
  | cons c rest ih =>
    intro dl idx lastPct fs ht hp
    have hcf : cancelFlag env idx = false := by simp [cancelFlag, hc]
    have hstep_t : (stepRecord dl c).total_bytes = 0 := by
      rw [stepRecord_total]; exact ht
    have hstep_p : (stepRecord dl c).progress_percent = 0 := by
      unfold stepRecord
      rw [if_neg (by omega)]
      exact hp
    have hnot : ¬(0 < dl.total_bytes ∧
        (stepRecord dl c).progress_percent - lastPct ≥ 5) := by
      intro hh
      exact absurd hh.1 (by omega)
    simp only [streamLoop]
    rw [if_neg (by simp [hcf]), if_neg (by simp [hf]), if_neg hnot]
    obtain ⟨h1, h2⟩ := ih (stepRecord dl c) (idx + 1) lastPct fs hstep_t hstep_p
    refine ⟨h1, ?_⟩
    intro s hs
    rcases List.mem_cons.mp hs with rfl | hmem
    · exact Or.inl hstep_p
    · exact h2 s hmem

/-! ## Claim theorems -/

/-- C2 counterexample: for the start request with filename
`../../etc/passwd` on a trusted URL, validation does reject, but the
rejection reason is the file-type message (`splitext` yields no extension
for `passwd`), not the path-traversal message the claim requires. -/
theorem C2_counterexample :
    (validate_model_url "https://huggingface.co/repo/f" "../../etc/passwd").1 = false ∧
    (validate_model_url "https://huggingface.co/repo/f" "../../etc/passwd").2 =
      extBlockedMsg "" ∧
    extBlockedMsg "" ≠ traversalMsg := by
  decide

/-- C2 (amended): for every URL, a start request with filename
`../../etc/passwd` is rejected, but never with the path-traversal reason:
an untrusted URL draws the source rejection, and a trusted URL draws the
file-type rejection because the extension check (which `passwd` fails,
having no extension) runs before the traversal check. -/
theorem C2_traversal_name_rejected (url : String) :
    (validate_model_url url "../../etc/passwd").1 = false ∧
    (validate_model_url url "../../etc/passwd").2 ≠ traversalMsg := by
  unfold validate_model_url
  split
  case isTrue h =>
    refine ⟨rfl, ?_⟩
    intro hEq
    have hlen := congrArg String.length hEq
    simp only [sourceBlockedMsg, String.length_append] at hlen
    have h2 : traversalMsg.length = 60 := by decide
    have h3 : 60 <
        ("Download blocked: URL source not allowed. Only HuggingFace, CivitAI, and " : String).length := by
      decide
    omega
  case isFalse h =>
    decide

/-- C2 witness: the amended theorem at the concrete trusted URL. -/
theorem C2_traversal_name_rejected_witness :
    (validate_model_url "https://huggingface.co/repo/f" "../../etc/passwd").1 = false ∧
    (validate_model_url "https://huggingface.co/repo/f" "../../etc/passwd").2 ≠ traversalMsg :=
  C2_traversal_name_rejected "https://huggingface.co/repo/f"

/-- C3: a well-formed start request whose URL does not begin with any
trusted origin prefix is answered with the "source not allowed" rejection;
the registry is unchanged (no record created) and no worker is spawned. -/
theorem C3_untrusted_source_rejected (ctx : ServerCtx) (reg : List DownloadInfo)
    (newId uid url mt fn : String)
    (hu : strTrim url ≠ "") (hm : strTrim mt ≠ "") (hf : strTrim fn ≠ "")
    (hmt : strTrim mt ∈ ctx.folderNames)
    (hsrc : ALLOWED_MODEL_SOURCES.any (fun s => strStartsWith (strTrim url) s) = false) :
    handle_download_model ctx reg newId uid url mt fn =
      (.blocked (sourceBlockedMsg (strTrim url)), reg, false) := by
  unfold handle_download_model validate_model_url
  simp [hu, hm, hf, hmt, hsrc]

/-- C3 witness: an `https://evil.example.com` URL is rejected as a
disallowed source, with the registry left empty and no worker spawned. -/
theorem C3_untrusted_source_rejected_witness :
    handle_download_model sampleCtx [] "id1" "alice"
        "https://evil.example.com/model.safetensors" "checkpoints" "model.safetensors" =
      (.blocked (sourceBlockedMsg (strTrim "https://evil.example.com/model.safetensors")),
       [], false) :=
  C3_untrusted_source_rejected sampleCtx [] "id1" "alice"
    "https://evil.example.com/model.safetensors" "checkpoints" "model.safetensors"
    (by decide) (by decide) (by decide) (by decide) (by decide)

/-- C5: when a file already exists at the derived destination path, a
well-formed, validated start request returns the `already_exists` result
carrying the destination path (its download id is null: the constructor has
no id), the registry is unchanged and no worker is spawned. -/
theorem C5_already_exists (ctx : ServerCtx) (reg : List DownloadInfo)
    (newId uid url mt fn : String)
    (hu : strTrim url ≠ "") (hm : strTrim mt ≠ "") (hf : strTrim fn ≠ "")
    (hmt : strTrim mt ∈ ctx.folderNames)
    (hval : (validate_model_url (strTrim url) (strTrim fn)).1 = true)
    (hex : ctx.destExistsAt (joinPath (ctx.folderPath (strTrim mt)) (strTrim fn)) = true) :
    handle_download_model ctx reg newId uid url mt fn =
      (.alreadyExists (strTrim fn) (joinPath (ctx.folderPath (strTrim mt)) (strTrim fn)),
       reg, false) := by
  unfold handle_download_model
  simp [hu, hm, hf, hmt, hval, hex]

/-- C5 witness: a trusted, valid request whose destination file already
exists is short-circuited with `already_exists`. -/
theorem C5_already_exists_witness :
    handle_download_model sampleCtxDup [] "id1" "alice"
        "https://huggingface.co/m/f.safetensors" "checkpoints" "f.safetensors" =
      (.alreadyExists (strTrim "f.safetensors")
        (joinPath (sampleCtxDup.folderPath (strTrim "checkpoints")) (strTrim "f.safetensors")),
       [], false) :=
  C5_already_exists sampleCtxDup [] "id1" "alice"
    "https://huggingface.co/m/f.safetensors" "checkpoints" "f.safetensors"
    (by decide) (by decide) (by decide) (by decide) (by decide) (by decide)

/-- C10: a start request whose model type is not a key of the folder table
is answered with the distinct invalid-model-type error carrying the list of
valid types; this happens for every URL and filename (so before security
validation), the registry is unchanged and no worker is spawned. -/
theorem C10_invalid_model_type (ctx : ServerCtx) (reg : List DownloadInfo)
    (newId uid url mt fn : String)
    (hu : strTrim url ≠ "") (hm : strTrim mt ≠ "") (hf : strTrim fn ≠ "")
    (hmt : strTrim mt ∉ ctx.folderNames) :
    handle_download_model ctx reg newId uid url mt fn =
      (.invalidType (strTrim mt) ctx.folderNames, reg, false) := by
  unfold handle_download_model
  simp [hu, hm, hf, hmt]

/-- C10 witness: an unknown model type wins over a URL and filename that
security validation would also reject, showing the check runs first. -/
theorem C10_invalid_model_type_witness :
    handle_download_model sampleCtx [] "id1" "alice"
        "https://evil.example.com/x" "vae" "../../etc/passwd" =
      (.invalidType (strTrim "vae") sampleCtx.folderNames, [], false) :=
  C10_invalid_model_type sampleCtx [] "id1" "alice"
    "https://evil.example.com/x" "vae" "../../etc/passwd"
    (by decide) (by decide) (by decide) (by decide)

/-- Setting the cancellation flag on the record with the given id commutes
with registry lookup. -/
theorem findDownload_setFlag (id : String) (reg : List DownloadInfo)
    (d : DownloadInfo) (h : findDownload reg id = some d) :
    findDownload (reg.map (fun e =>
        if e.download_id == id then { e with cancel_requested := true } else e)) id
      = some { d with cancel_requested := true } := by
  induction reg with
  | nil => simp [findDownload] at h
  | cons a l ih =>
    unfold findDownload at h ⊢
    rw [List.map_cons]
    by_cases ha : (fun e : DownloadInfo => e.download_id == id) a = true
    · rw [@List.find?_cons_of_pos DownloadInfo
        (fun e => e.download_id == id) a l ha] at h
      obtain rfl : a = d := by injection h
      have ha2 : (fun e : DownloadInfo => e.download_id == id)
          { a with cancel_requested := true } = true := ha
      rw [if_pos ha]
      exact @List.find?_cons_of_pos DownloadInfo (fun e => e.download_id == id)
        { a with cancel_requested := true } _ ha2
    · rw [@List.find?_cons_of_neg DownloadInfo
        (fun e => e.download_id == id) a l ha] at h
      rw [if_neg ha, @List.find?_cons_of_neg DownloadInfo
        (fun e => e.download_id == id) a _ ha]
      exact ih h

/-- C6 counterexample: a second cancel of a still-downloading record (its
`cancel_requested` flag already `true`) reports success, not the failure
the claim requires for a flag that was not newly set. -/
theorem C6_counterexample :
    sampleFlagged.cancel_requested = true ∧
    (cancel_download [sampleFlagged] "id1").2 = true := by
  decide

/-- C6 (amended): `cancel_download` reports success exactly when the looked
up record's status is `downloading` — regardless of whether the flag was
already set, so a second cancel of a still-downloading record also reports
success; on failure (pending, terminal, or unknown id) nothing is mutated;
on success the record's `cancel_requested` flag is true afterwards. -/
theorem C6_cancel_reports_downloading (reg : List DownloadInfo) (id : String) :
    ((cancel_download reg id).2 = true ↔
      ∃ d, findDownload reg id = some d ∧ d.status = "downloading") ∧
    ((cancel_download reg id).2 = false → cancel_download reg id = (reg, false)) ∧
    ((cancel_download reg id).2 = true →
      ∃ d, findDownload (cancel_download reg id).1 id = some d ∧
        d.cancel_requested = true ∧ d.status = "downloading") := by
  unfold cancel_download
  cases h : findDownload reg id with
  | none => simp
  | some d =>
    dsimp only
    by_cases hs : d.status = "downloading"
    · rw [if_pos hs]
      refine ⟨⟨fun _ => ⟨d, rfl, hs⟩, fun _ => rfl⟩, ?_, ?_⟩
      · intro hfalse; exact absurd hfalse (by simp)
      · intro _
        exact ⟨{ d with cancel_requested := true },
          findDownload_setFlag id reg d h, rfl, hs⟩
    · rw [if_neg hs]
      refine ⟨⟨?_, ?_⟩, fun _ => rfl, ?_⟩
      · intro htrue; exact absurd htrue (by simp)
      · rintro ⟨d', hd', hs'⟩
        obtain rfl : d = d' := by injection hd'
        exact absurd hs' hs
      · intro htrue; exact absurd htrue (by simp)

/-- C6 witness: the amended theorem applied to a one-record registry whose
record is mid-transfer with the flag already set. -/
theorem C6_cancel_reports_downloading_witness :
    (cancel_download [sampleFlagged] "id1").2 = true :=
  (C6_cancel_reports_downloading [sampleFlagged] "id1").1.mpr
    ⟨sampleFlagged, by decide, by decide⟩

/-- C4: when the declared Content-Length strictly exceeds the 50 GiB cap,
the worker fails with the size error before creating any temporary file or
writing any byte: the file system is untouched, so no temp file was ever
created and nothing exists at the destination path afterwards, and the
record's byte counter is still zero. -/
theorem C4_size_limit_failure (env : Env) (ctx : ServerCtx)
    (uid url mt fn id : String) (fs : FS)
    (h200 : env.httpStatus = 200)
    (hbig : env.contentLength.getD 0 > MAX_MODEL_SIZE_BYTES) :
    (download_model env (create_download ctx uid url mt fn id) fs).record.status = "failed" ∧
    (download_model env (create_download ctx uid url mt fn id) fs).record.error_message =
      some (.tooLarge (env.contentLength.getD 0)) ∧
    (download_model env (create_download ctx uid url mt fn id) fs).record.progress_bytes = 0 ∧
    (download_model env (create_download ctx uid url mt fn id) fs).fs = fs := by
  unfold download_model
  simp [h200, hbig, create_download]

/-- C4 witness: a declared size of 50 GiB + 1 byte fails with the size
error on a fresh file system, which stays empty. -/
theorem C4_size_limit_failure_witness :
    (download_model envTooLarge sampleDl FS.init).record.status = "failed" ∧
    (download_model envTooLarge sampleDl FS.init).record.error_message =
      some (.tooLarge (envTooLarge.contentLength.getD 0)) ∧
    (download_model envTooLarge sampleDl FS.init).record.progress_bytes = 0 ∧
    (download_model envTooLarge sampleDl FS.init).fs = FS.init :=
  C4_size_limit_failure envTooLarge sampleCtx "alice"
    "https://huggingface.co/m/f.safetensors" "checkpoints" "f.safetensors" "id1"
    FS.init (by decide) (by decide)

set_option maxRecDepth 1000000 in
/-- C1 counterexample: for a clean full-body run the timeline contains a
snapshot with `progress_percent = 100` while `status` is still
`"downloading"` (after the final chunk, before the publish step), refuting
"percent equals 100 only at completed"; and when the body delivers more
bytes than the declared total, the percentage exceeds 100 and then drops
back to 100 at completion, refuting unconditional monotonicity. -/
theorem C1_counterexample :
    (∃ s ∈ (download_model envFullBody sampleDl FS.init).timeline,
      s.progress_percent = 100 ∧ s.status = "downloading") ∧
    ¬ List.Chain' pctLe (download_model envOverBody sampleDl FS.init).timeline := by
  constructor
  · with_unfolding_all decide
  · intro hch
    have h3 : (download_model envOverBody sampleDl FS.init).timeline.map
        (fun s => s.progress_percent) = [0, 0, 0, 150, 100] := by
      with_unfolding_all decide
    have hch2 : List.Chain' (fun a b : ℚ => a ≤ b)
        ((download_model envOverBody sampleDl FS.init).timeline.map
          (fun s => s.progress_percent)) := (List.chain'_map _).mpr hch
    rw [h3] at hch2
    have h45 := (List.chain'_cons.mp
      ((List.chain'_cons.mp ((List.chain'_cons.mp hch2).2)).2)).2
    exact absurd (List.chain'_cons.mp h45).1 (by norm_num)

/-- C1 (amended): provided the body delivers at most the declared total (or
no total is declared), `progress_percent` is non-decreasing along the
record's timeline and never exceeds 100, and `status = "completed"` implies
`progress_percent = 100`; the converse fails (see the counterexample):
the percentage already reaches 100 while the status is still
`"downloading"` once the last chunk is counted. -/
theorem C1_percent_monotone (env : Env) (ctx : ServerCtx)
    (uid url mt fn id : String) (fs : FS)
    (hsum : env.contentLength.getD 0 = 0 ∨
      env.chunks.sum ≤ env.contentLength.getD 0) :
    List.Chain' pctLe
      (download_model env (create_download ctx uid url mt fn id) fs).timeline ∧
    (∀ s ∈ (download_model env (create_download ctx uid url mt fn id) fs).timeline,
      s.progress_percent ≤ 100) ∧
    ((download_model env (create_download ctx uid url mt fn id) fs).record.status
        = "completed" →
      (download_model env (create_download ctx uid url mt fn id) fs).record.progress_percent
        = 100) := by
  simp only [download_model]
  split
  case isTrue h =>
    refine ⟨?_, ?_, ?_⟩
    · exact List.chain'_cons.mpr ⟨le_refl _,
        List.chain'_cons.mpr ⟨le_refl _, List.chain'_singleton _⟩⟩
    · intro s hs
      rcases List.mem_cons.mp hs with rfl | hs
      · exact (by norm_num : (0 : ℚ) ≤ 100)
      rcases List.mem_cons.mp hs with rfl | hs
      · exact (by norm_num : (0 : ℚ) ≤ 100)
      obtain rfl := List.mem_singleton.mp hs
      exact (by norm_num : (0 : ℚ) ≤ 100)
    · intro hcompl
      exact absurd ((by decide : ("failed" : String) ≠ "completed"))
        (fun hne => hne hcompl)
  case isFalse h =>
    split
    case isTrue hbig =>
      refine ⟨?_, ?_, ?_⟩
      · exact List.chain'_cons.mpr ⟨le_refl _, List.chain'_cons.mpr ⟨le_refl _,
          List.chain'_cons.mpr ⟨le_refl _, List.chain'_singleton _⟩⟩⟩
      · intro s hs
        rcases List.mem_cons.mp hs with rfl | hs
        · exact (by norm_num : (0 : ℚ) ≤ 100)
        rcases List.mem_cons.mp hs with rfl | hs
        · exact (by norm_num : (0 : ℚ) ≤ 100)
        rcases List.mem_cons.mp hs with rfl | hs
        · exact (by norm_num : (0 : ℚ) ≤ 100)
        obtain rfl := List.mem_singleton.mp hs
        exact (by norm_num : (0 : ℚ) ≤ 100)
      · intro hcompl
        exact absurd ((by decide : ("failed" : String) ≠ "completed"))
          (fun hne => hne hcompl)
    case isFalse hbig =>
      have hinvT : PctInv { create_download ctx uid url mt fn id with
          status := "downloading", total_bytes := env.contentLength.getD 0 } := by
        unfold PctInv
        split <;> simp [create_download]
      have hsumT : ({ create_download ctx uid url mt fn id with
            status := "downloading",
            total_bytes := env.contentLength.getD 0 } : DownloadInfo).total_bytes = 0 ∨
          ({ create_download ctx uid url mt fn id with
            status := "downloading",
            total_bytes := env.contentLength.getD 0 } : DownloadInfo).progress_bytes
              + env.chunks.sum ≤
            ({ create_download ctx uid url mt fn id with
              status := "downloading",
              total_bytes := env.contentLength.getD 0 } : DownloadInfo).total_bytes := by
        show env.contentLength.getD 0 = 0 ∨
          0 + env.chunks.sum ≤ env.contentLength.getD 0
        rcases hsum with h0 | hb
        · exact Or.inl h0
        · right; omega
      refine ⟨?_, ?_, ?_⟩
      · refine List.chain'_cons.mpr ⟨le_refl _, List.chain'_cons.mpr ⟨le_refl _, ?_⟩⟩
        exact streamLoop_chain env env.chunks _ 0 0 _ hinvT hsumT
      · intro s hs
        rcases List.mem_cons.mp hs with rfl | hs
        · exact (by norm_num : (0 : ℚ) ≤ 100)
        rcases List.mem_cons.mp hs with rfl | hs
        · exact (by norm_num : (0 : ℚ) ≤ 100)
        rcases List.mem_cons.mp hs with rfl | hs
        · exact (by norm_num : (0 : ℚ) ≤ 100)
        exact streamLoop_le100 env env.chunks _ 0 0 _ hinvT hsumT s hs
      · intro hcompl
        exact streamLoop_completed_pct env env.chunks _ 0 0 _ hcompl

/-- C1 witness: the amended theorem on a clean two-chunk run whose body
matches the declared total. -/
theorem C1_percent_monotone_witness :
    List.Chain' pctLe (download_model envTwoChunks sampleDl FS.init).timeline ∧
    (∀ s ∈ (download_model envTwoChunks sampleDl FS.init).timeline,
      s.progress_percent ≤ 100) ∧
    ((download_model envTwoChunks sampleDl FS.init).record.status = "completed" →
      (download_model envTwoChunks sampleDl FS.init).record.progress_percent = 100) :=
  C1_percent_monotone envTwoChunks sampleCtx "alice"
    "https://huggingface.co/m/f.safetensors" "checkpoints" "f.safetensors" "id1"
    FS.init (by decide)

/-- C7 counterexample: on a clean run with no Content-Length header the
worker completes, yet `progress_bytes` (5) differs from `total_bytes` (0):
the source never assigns `bytesTransferred = bytesTotal` at completion. -/
theorem C7_counterexample :
    (download_model envNoLength sampleDl FS.init).record.status = "completed" ∧
    (download_model envNoLength sampleDl FS.init).record.progress_bytes ≠
      (download_model envNoLength sampleDl FS.init).record.total_bytes := by
  decide

/-- C7 (amended): on exhausting the body without cancellation or failure,
the worker publishes the temporary file to the destination (no temp file
remains, the destination exists), sets `progress_percent = 100` and
`status = "completed"`, and its final notification is the completed record;
`progress_bytes` ends at the cumulative bytes received, which equals
`total_bytes` only when the body length matches the declared
Content-Length (the worker performs no such assignment). -/
theorem C7_completion_publishes (env : Env) (dl0 : DownloadInfo) (fs : FS)
    (h200 : env.httpStatus = 200)
    (hsize : env.contentLength.getD 0 ≤ MAX_MODEL_SIZE_BYTES)
    (hc : env.cancelAt = none) (hf : env.failAt = none)
    (hm : env.moveFails = false) :
    (download_model env dl0 fs).record.status = "completed" ∧
    (download_model env dl0 fs).record.progress_percent = 100 ∧
    (download_model env dl0 fs).record.progress_bytes =
      dl0.progress_bytes + env.chunks.sum ∧
    (download_model env dl0 fs).fs.tempExists = false ∧
    (download_model env dl0 fs).fs.destExists = true ∧
    (download_model env dl0 fs).notifications.getLast? =
      some (download_model env dl0 fs).record := by
  simp only [download_model]
  rw [if_neg (by simp [h200]), if_neg (by omega)]
  have h := streamLoop_success env hc hf hm env.chunks
    { dl0 with status := "downloading", total_bytes := env.contentLength.getD 0 }
    0 0 (FS.mkstemp fs)
  exact ⟨h.1, h.2.1, h.2.2.1, h.2.2.2.1, h.2.2.2.2.1, h.2.2.2.2.2⟩

/-- C7 witness: a clean two-chunk run completes, publishes, and notifies. -/
theorem C7_completion_publishes_witness :
    (download_model envTwoChunks sampleDl FS.init).record.status = "completed" ∧
    (download_model envTwoChunks sampleDl FS.init).record.progress_percent = 100 ∧
    (download_model envTwoChunks sampleDl FS.init).record.progress_bytes =
      sampleDl.progress_bytes + envTwoChunks.chunks.sum ∧
    (download_model envTwoChunks sampleDl FS.init).fs.tempExists = false ∧
    (download_model envTwoChunks sampleDl FS.init).fs.destExists = true ∧
    (download_model envTwoChunks sampleDl FS.init).notifications.getLast? =
      some (download_model envTwoChunks sampleDl FS.init).record :=
  C7_completion_publishes envTwoChunks sampleDl FS.init (by decide) (by decide)
    rfl rfl rfl

/-- C8: whatever terminal state a worker run reaches (completed, failed or
cancelled — the run always ends in one of the three), no temporary file of
that worker remains afterwards. -/
theorem C8_no_orphan_temp (env : Env) (dl0 : DownloadInfo) (fs : FS)
    (h : fs.tempExists = false) :
    (download_model env dl0 fs).fs.tempExists = false ∧
    ((download_model env dl0 fs).record.status = "completed" ∨
     (download_model env dl0 fs).record.status = "failed" ∨
     (download_model env dl0 fs).record.status = "cancelled") := by
  simp only [download_model]
  split
  · exact ⟨h, Or.inr (Or.inl rfl)⟩
  · split
    · exact ⟨h, Or.inr (Or.inl rfl)⟩
    · exact ⟨streamLoop_fs_clean env env.chunks _ _ _ _,
        streamLoop_terminal_status env env.chunks _ _ _ _⟩

/-- C8 witness: a run cancelled after the first chunk ends in a terminal
state with no temporary file left. -/
theorem C8_no_orphan_temp_witness :
    (download_model envCancelMid sampleDl FS.init).fs.tempExists = false ∧
    ((download_model envCancelMid sampleDl FS.init).record.status = "completed" ∨
     (download_model envCancelMid sampleDl FS.init).record.status = "failed" ∨
     (download_model envCancelMid sampleDl FS.init).record.status = "cancelled") :=
  C8_no_orphan_temp envCancelMid sampleDl FS.init rfl

/-- C9: with no Content-Length header, `total_bytes` is recorded as 0, the
size cap passes whatever the body delivers (the run completes for every
chunk list, so the cap is enforced only against the declared size), the
percentage stays 0 at every streaming snapshot until the completion
snapshot sets it to 100, and the only notification is the final one. -/
theorem C9_no_content_length (env : Env) (ctx : ServerCtx)
    (uid url mt fn id : String) (fs : FS)
    (hcl : env.contentLength = none) (h200 : env.httpStatus = 200)
    (hc : env.cancelAt = none) (hf : env.failAt = none)
    (hm : env.moveFails = false) :
    (download_model env (create_download ctx uid url mt fn id) fs).record.total_bytes
      = 0 ∧
    (download_model env (create_download ctx uid url mt fn id) fs).record.status
      = "completed" ∧
    (download_model env (create_download ctx uid url mt fn id) fs).record.progress_percent
      = 100 ∧
    (∀ s ∈ (download_model env (create_download ctx uid url mt fn id) fs).timeline,
      s.progress_percent = 0 ∨ s.status = "completed") ∧
    (download_model env (create_download ctx uid url mt fn id) fs).notifications =
      [(download_model env (create_download ctx uid url mt fn id) fs).record] := by
  simp only [download_model, hcl, Option.getD_none]
  rw [if_neg (by simp [h200]), if_neg (Nat.not_lt_zero _)]
  have hsucc := streamLoop_success env hc hf hm env.chunks
    { create_download ctx uid url mt fn id with
      status := "downloading", total_bytes := 0 } 0 0 (FS.mkstemp fs)
  have hzero := streamLoop_zero_total env hc hf hm env.chunks
    { create_download ctx uid url mt fn id with
      status := "downloading", total_bytes := 0 } 0 0 (FS.mkstemp fs) rfl rfl
  refine ⟨?_, hsucc.1, hsucc.2.1, ?_, hzero.1⟩
  · exact (streamLoop_total env env.chunks _ 0 0 _).trans rfl
  · intro s hs
    rcases List.mem_cons.mp hs with rfl | hs
    · exact Or.inl rfl
    rcases List.mem_cons.mp hs with rfl | hs
    · exact Or.inl rfl
    rcases List.mem_cons.mp hs with rfl | hs
    · exact Or.inl rfl
    exact hzero.2 s hs

/-- C9 witness: with no declared total, even a single chunk far larger than
the 50 GiB cap streams to completion (the cap never checks received
bytes), with the percentage jumping from 0 directly to 100. -/
theorem C9_no_content_length_witness :
    (download_model envHugeBody sampleDl FS.init).record.total_bytes = 0 ∧
    (download_model envHugeBody sampleDl FS.init).record.status = "completed" ∧
    (download_model envHugeBody sampleDl FS.init).record.progress_percent = 100 ∧
    (∀ s ∈ (download_model envHugeBody sampleDl FS.init).timeline,
      s.progress_percent = 0 ∨ s.status = "completed") ∧
    (download_model envHugeBody sampleDl FS.init).notifications =
      [(download_model envHugeBody sampleDl FS.init).record] :=
  C9_no_content_length envHugeBody sampleCtx "alice"
    "https://huggingface.co/m/f.safetensors" "checkpoints" "f.safetensors" "id1"
    FS.init rfl rfl rfl rfl rfl

end BagelModelDownloader
